import Mathlib

/-!
Shallow embedding of `stepper_motor.py` (class `StepperMotor`).

Python integers are modelled as `ℤ`, Python numbers (rpm, degrees, delays)
as `ℚ`, and raised exceptions as explicit error values.  GPIO side effects
are abstracted away except for the number of pulses emitted on the pulse
pin, which each operation reports.  An operation that raises an exception
returns the motor state as it was at the raise point together with the
number of pulses emitted up to that point, mirroring Python objects whose
state survives an exception.
-/

/-- Python exceptions raised by `stepper_motor.py`, with their messages. -/
inductive PyError where
  | valueError (msg : String)
  | indexError (msg : String)
  | attributeError (msg : String)
  | zeroDivisionError
  deriving DecidableEq

/-- The state of a `StepperMotor` object: configuration fields fixed at
`__init__` plus the mutable position counter `steps_from_home`
(`none` models Python `None`, home not set). Pin numbers are omitted:
they only feed the GPIO shim. -/
structure StepperMotor where
  steps_per_revolution : ℤ
  max_rpm : Option ℚ
  hold_position : Bool
  steps_from_home : Option ℤ
  deriving DecidableEq

/-- Python `int(q)` for a real number: truncation toward zero. -/
def py_int (q : ℚ) : ℤ :=
  if 0 ≤ q then ⌊q⌋ else ⌈q⌉

/-- `calculate_delay_from_rpm`: `time_per_revolution = 60 / rpm`;
`delay = time_per_revolution / (steps_per_revolution * 2)`.  Python
raises `ZeroDivisionError` when a divisor is zero. -/
def calculate_delay_from_rpm (m : StepperMotor) (rpm : ℚ) : Except PyError ℚ :=
  if rpm = 0 then Except.error PyError.zeroDivisionError
  else
    let time_per_revolution : ℚ := 60 / rpm
    if (m.steps_per_revolution : ℚ) * 2 = 0 then Except.error PyError.zeroDivisionError
    else Except.ok (time_per_revolution / ((m.steps_per_revolution : ℚ) * 2))

/-- `set_current_position_as_home`: sets `steps_from_home = 0`. -/
def set_current_position_as_home (m : StepperMotor) : StepperMotor :=
  { m with steps_from_home := some 0 }

/-- `update_position`: no-op when home is unset; clockwise increments and
resets to `0` on reaching `steps_per_revolution`; counterclockwise first
replaces `0` by `steps_per_revolution`, then decrements. -/
def update_position (m : StepperMotor) (turn_clockwise : Bool) : StepperMotor :=
  match m.steps_from_home with
  | none => m
  | some s =>
    if turn_clockwise then
      if s + 1 = m.steps_per_revolution then { m with steps_from_home := some 0 }
      else { m with steps_from_home := some (s + 1) }
    else
      if s = 0 then { m with steps_from_home := some (m.steps_per_revolution - 1) }
      else { m with steps_from_home := some (s - 1) }

/-- Result of an operation that may pulse the motor: the object state after
the call, the number of pulses emitted on the pulse pin, and the exception
raised, if any. -/
structure StepResult where
  motor : StepperMotor
  pulses : ℕ
  error : Option PyError
  deriving DecidableEq

/-- The guard at the top of `step`: `max_rpm != None and rpm > max_rpm`. -/
def max_rpm_exceeded (m : StepperMotor) (rpm : ℚ) : Bool :=
  match m.max_rpm with
  | none => false
  | some mx => decide (rpm > mx)

/-- The `ValueError` raised when the requested rpm exceeds `max_rpm`. -/
def speedExceededError : PyError :=
  PyError.valueError "Desired rpm is higher than max_rpm"

/-- The pulse loop body of `step`: `range(steps)` iterations, each emitting
one pulse and then calling `update_position` once. -/
def stepLoop (m : StepperMotor) (turn_clockwise : Bool) : ℕ → StepperMotor
  | 0 => m
  | n + 1 => stepLoop (update_position m turn_clockwise) turn_clockwise n

/-- `step(steps, turn_clockwise, rpm)`: checks `max_rpm`, computes the delay
(which can raise before any pulse), then runs `for i in range(steps)`,
emitting a pulse and updating the position each iteration.  `range` of a
non-positive argument is empty, hence `Int.toNat`. -/
def step (m : StepperMotor) (steps : ℤ) (turn_clockwise : Bool) (rpm : ℚ) : StepResult :=
  if max_rpm_exceeded m rpm then
    ⟨m, 0, some speedExceededError⟩
  else
    match calculate_delay_from_rpm m rpm with
    | Except.error e => ⟨m, 0, some e⟩
    | Except.ok _ => ⟨stepLoop m turn_clockwise steps.toNat, steps.toNat, none⟩

/-- `do_one_rotation`: `step(steps_per_revolution, ...)`. -/
def do_one_rotation (m : StepperMotor) (turn_clockwise : Bool) (rpm : ℚ) : StepResult :=
  step m m.steps_per_revolution turn_clockwise rpm

/-- `rotate`: `step(rotations * steps_per_revolution, ...)`. -/
def rotate (m : StepperMotor) (rotations : ℤ) (turn_clockwise : Bool) (rpm : ℚ) : StepResult :=
  step m (rotations * m.steps_per_revolution) turn_clockwise rpm

/-- The tail of `go_to_position` from the early return on
`steps_relative_to_home == self.steps_from_home` onward: `cur` is the
current `steps_from_home`, `target` the resolved `steps_relative_to_home`. -/
def go_to_target (m : StepperMotor) (turn_clockwise : Bool) (rpm : ℚ)
    (cur target : ℤ) : StepResult :=
  if target = cur then ⟨m, 0, none⟩
  else if target < 0 ∨ target > m.steps_per_revolution - 1 then
    ⟨m, 0, some (PyError.indexError
      "Value given for steps_relative_to_home exceeds self.steps_per_revolution.")⟩
  else if turn_clockwise then
    if target > cur then step m (target - cur) true rpm
    else step m (m.steps_per_revolution - cur + target) true rpm
  else
    if target > cur then step m (cur + (m.steps_per_revolution - target)) false rpm
    else step m (cur - target) false rpm

/-- `go_to_position(turn_clockwise, rpm, steps_relative_to_home, degree)`:
home check, argument-shape checks, optional degree resolution (range check,
step-angle multiple check, conversion by truncating division), then the
direction-respecting distance computation handed to `step`. -/
def go_to_position (m : StepperMotor) (turn_clockwise : Bool) (rpm : ℚ)
    (steps_relative_to_home : Option ℤ) (degree : Option ℚ) : StepResult :=
  match m.steps_from_home with
  | none => ⟨m, 0, some (PyError.attributeError
      "Cannot go to position if home position has not been set -> self.steps_from home is set to None.")⟩
  | some cur =>
    match steps_relative_to_home, degree with
    | none, none => ⟨m, 0, some (PyError.valueError
        "No argument for steps_relative_to_home or degree was given.")⟩
    | some _, some _ => ⟨m, 0, some (PyError.valueError
        "Only specify steps_relative_to_home or degree. Not both at the same time.")⟩
    | some target, none => go_to_target m turn_clockwise rpm cur target
    | none, some d =>
      if d < 0 ∨ d > 360 then
        ⟨m, 0, some (PyError.indexError "Value for degree has to be between 0 and 360.")⟩
      else if (m.steps_per_revolution : ℚ) = 0 then ⟨m, 0, some PyError.zeroDivisionError⟩
      else
        let step_angle : ℚ := 360 / (m.steps_per_revolution : ℚ)
        if d / step_angle ≠ ((py_int (d / step_angle) : ℤ) : ℚ) then
          ⟨m, 0, some (PyError.valueError
            "Value given for degree is not a multiple of the motors step angle.")⟩
        else go_to_target m turn_clockwise rpm cur (py_int (d / step_angle))

/-- A sequence of position updates (the spec's `advance` calls), one per
pulse, folded over the list of directions taken. -/
def advanceSeq (m : StepperMotor) : List Bool → StepperMotor
  | [] => m
  | d :: ds => advanceSeq (update_position m d) ds

/-- A concrete motor used to instantiate theorems: 200 steps per
revolution, no `max_rpm`, home set with `steps_from_home = 0`. -/
def demo200 : StepperMotor := ⟨200, none, true, some 0⟩

/-- Like `demo200` but with `steps_from_home = 10`. -/
def demo200at10 : StepperMotor := ⟨200, none, true, some 10⟩

/-- Like `demo200` but with `max_rpm = 100`. -/
def demo200max : StepperMotor := ⟨200, some 100, true, some 0⟩

/-! ### Basic lemmas about the embedding -/

@[simp]
lemma update_position_spr (m : StepperMotor) (d : Bool) :
    (update_position m d).steps_per_revolution = m.steps_per_revolution := by
  unfold update_position
  rcases m.steps_from_home with _ | s <;> cases d <;> simp <;> split <;> rfl

@[simp]
lemma update_position_max_rpm (m : StepperMotor) (d : Bool) :
    (update_position m d).max_rpm = m.max_rpm := by
  unfold update_position
  rcases m.steps_from_home with _ | s <;> cases d <;> simp <;> split <;> rfl

@[simp]
lemma update_position_hold (m : StepperMotor) (d : Bool) :
    (update_position m d).hold_position = m.hold_position := by
  unfold update_position
  rcases m.steps_from_home with _ | s <;> cases d <;> simp <;> split <;> rfl

/-- One `update_position` on a position in `[0, N)` is a modular step of
`±1`: the wraparound branches of the code realise `Int.emod`. -/
lemma update_position_steps (m : StepperMotor) (s : ℤ) (d : Bool)
    (hm : m.steps_from_home = some s)
    (h0 : 0 ≤ s) (hN : s < m.steps_per_revolution) :
    (update_position m d).steps_from_home =
      some ((if d then s + 1 else s - 1) % m.steps_per_revolution) := by
  have hNpos : 0 < m.steps_per_revolution := lt_of_le_of_lt h0 hN
  unfold update_position
  rw [hm]
  cases d with
  | true =>
    simp only [if_true]
    by_cases h : s + 1 = m.steps_per_revolution
    · simp only [h, if_true, Int.emod_self]
    · have h1 : s + 1 < m.steps_per_revolution := lt_of_le_of_ne (by omega) h
      simp only [h, if_false]
      rw [Int.emod_eq_of_lt (by omega) h1]
  | false =>
    simp only [Bool.false_eq_true, if_false]
    by_cases h : s = 0
    · subst h
      simp only [if_true]
      have hneg : (-1 : ℤ) % m.steps_per_revolution = m.steps_per_revolution - 1 := by
        calc (-1 : ℤ) % m.steps_per_revolution
            = (-1 + m.steps_per_revolution * 1) % m.steps_per_revolution :=
              (Int.add_mul_emod_self_left (-1) m.steps_per_revolution 1).symm
          _ = (m.steps_per_revolution - 1) % m.steps_per_revolution := by ring_nf
          _ = m.steps_per_revolution - 1 :=
              Int.emod_eq_of_lt (by omega) (by omega)
      rw [show (0 : ℤ) - 1 = -1 by ring, hneg]
    · simp only [h, if_false]
      rw [Int.emod_eq_of_lt (by omega) (by omega)]

/-- The position after an `update_position` on an in-range position is again
in range. -/
lemma update_position_mem (m : StepperMotor) (s : ℤ) (d : Bool)
    (hm : m.steps_from_home = some s)
    (h0 : 0 ≤ s) (hN : s < m.steps_per_revolution) :
    ∃ s', (update_position m d).steps_from_home = some s' ∧
      0 ≤ s' ∧ s' < m.steps_per_revolution := by
  have hNpos : 0 < m.steps_per_revolution := lt_of_le_of_lt h0 hN
  refine ⟨(if d then s + 1 else s - 1) % m.steps_per_revolution,
    update_position_steps m s d hm h0 hN, Int.emod_nonneg _ (by omega),
    Int.emod_lt_of_pos _ hNpos⟩

@[simp]
lemma stepLoop_spr (d : Bool) (k : ℕ) (m : StepperMotor) :
    (stepLoop m d k).steps_per_revolution = m.steps_per_revolution := by
  induction k generalizing m with
  | zero => rfl
  | succ n ih => rw [stepLoop, ih, update_position_spr]

@[simp]
lemma stepLoop_max_rpm (d : Bool) (k : ℕ) (m : StepperMotor) :
    (stepLoop m d k).max_rpm = m.max_rpm := by
  induction k generalizing m with
  | zero => rfl
  | succ n ih => rw [stepLoop, ih, update_position_max_rpm]

@[simp]
lemma stepLoop_hold (d : Bool) (k : ℕ) (m : StepperMotor) :
    (stepLoop m d k).hold_position = m.hold_position := by
  induction k generalizing m with
  | zero => rfl
  | succ n ih => rw [stepLoop, ih, update_position_hold]

/-- `k` pulses in one direction move the position by `±k` modulo
`steps_per_revolution`. -/
lemma stepLoop_steps (d : Bool) (k : ℕ) (m : StepperMotor) (s : ℤ)
    (hm : m.steps_from_home = some s)
    (h0 : 0 ≤ s) (hN : s < m.steps_per_revolution) :
    (stepLoop m d k).steps_from_home =
      some ((if d then s + k else s - k) % m.steps_per_revolution) := by
  induction k generalizing m s with
  | zero =>
    rw [stepLoop, hm]
    cases d <;> simp <;> rw [Int.emod_eq_of_lt h0 hN]
  | succ n ih =>
    have hNpos : 0 < m.steps_per_revolution := lt_of_le_of_lt h0 hN
    rw [stepLoop]
    have hupd := update_position_steps m s d hm h0 hN
    set s' : ℤ := (if d then s + 1 else s - 1) % m.steps_per_revolution with hs'
    have h0' : 0 ≤ s' := Int.emod_nonneg _ (by omega)
    have hN' : s' < m.steps_per_revolution := Int.emod_lt_of_pos _ hNpos
    have := ih (update_position m d) s'
      (by rw [hupd]) h0'
      (by rw [update_position_spr]; exact hN')
    rw [this, update_position_spr]
    congr 1
    cases d with
    | true =>
      simp only [if_true, hs']
      rw [Int.add_emod ((s + 1) % m.steps_per_revolution) (n : ℤ),
        Int.emod_emod_of_dvd _ dvd_rfl, ← Int.add_emod]
      congr 1
      push_cast
      ring
    | false =>
      simp only [Bool.false_eq_true, if_false, hs']
      rw [Int.sub_emod ((s - 1) % m.steps_per_revolution) (n : ℤ),
        Int.emod_emod_of_dvd _ dvd_rfl, ← Int.sub_emod]
      congr 1
      push_cast
      ring

/-- Reduction of an integer of the form `a + N * z` with `a ∈ [0, N)`
modulo `N`. -/
lemma emod_reduce (a N z : ℤ) (h0 : 0 ≤ a) (hN : a < N) : (a + N * z) % N = a := by
  rw [Int.add_mul_emod_self_left, Int.emod_eq_of_lt h0 hN]

/-- When the requested rpm passes the `max_rpm` check, is nonzero, and
`steps_per_revolution` is nonzero, `step` raises nothing: it emits
`steps.toNat` pulses and runs the pulse loop. -/
lemma step_ok (m : StepperMotor) (steps : ℤ) (d : Bool) (rpm : ℚ)
    (hspeed : max_rpm_exceeded m rpm = false) (hrpm : rpm ≠ 0)
    (hN : m.steps_per_revolution ≠ 0) :
    step m steps d rpm = ⟨stepLoop m d steps.toNat, steps.toNat, none⟩ := by
  unfold step calculate_delay_from_rpm
  rw [hspeed]
  have h2 : (m.steps_per_revolution : ℚ) * 2 ≠ 0 := by
    simp [hN]
  simp [hrpm, h2]

/-- Specification of the distance computation and execution of
`go_to_position` on an already-resolved in-range target: no error, the final
position is the target, and the pulse count is the direction-respecting
distance from the source. -/
lemma go_to_target_spec (m : StepperMotor) (d : Bool) (rpm : ℚ) (cur target : ℤ)
    (hm : m.steps_from_home = some cur)
    (hc0 : 0 ≤ cur) (hcN : cur < m.steps_per_revolution)
    (ht0 : 0 ≤ target) (htN : target < m.steps_per_revolution)
    (hspeed : max_rpm_exceeded m rpm = false) (hrpm : rpm ≠ 0) :
    (go_to_target m d rpm cur target).error = none ∧
    (go_to_target m d rpm cur target).motor.steps_from_home = some target ∧
    ((go_to_target m d rpm cur target).pulses : ℤ) =
      (if target = cur then 0
       else if d then
        (if target > cur then target - cur
         else m.steps_per_revolution - cur + target)
       else
        (if target > cur then cur + (m.steps_per_revolution - target)
         else cur - target)) := by
  have hNpos : 0 < m.steps_per_revolution := lt_of_le_of_lt hc0 hcN
  have hN0 : m.steps_per_revolution ≠ 0 := by omega
  unfold go_to_target
  by_cases heq : target = cur
  · rw [if_pos heq]
    exact ⟨rfl, by rw [hm, heq], by rw [if_pos heq]; rfl⟩
  · rw [if_neg heq, if_neg (show ¬(target < 0 ∨ target > m.steps_per_revolution - 1)
      by omega)]
    cases d with
    | true =>
      simp only [if_true]
      by_cases hgt : target > cur
      · rw [if_pos hgt, step_ok m (target - cur) true rpm hspeed hrpm hN0]
        have hcast : (((target - cur).toNat : ℤ)) = target - cur :=
          Int.toNat_of_nonneg (by omega)
        refine ⟨rfl, ?_, ?_⟩
        · show (stepLoop m true (target - cur).toNat).steps_from_home = some target
          rw [stepLoop_steps true (target - cur).toNat m cur hm hc0 hcN]
          simp only [if_true, hcast]
          rw [show cur + (target - cur) = target + m.steps_per_revolution * 0 by ring,
            emod_reduce target m.steps_per_revolution 0 ht0 htN]
        · show (((target - cur).toNat : ℤ)) = _
          rw [hcast, if_neg heq, if_pos hgt]
      · rw [if_neg hgt,
          step_ok m (m.steps_per_revolution - cur + target) true rpm hspeed hrpm hN0]
        have hcast : (((m.steps_per_revolution - cur + target).toNat : ℤ))
            = m.steps_per_revolution - cur + target := Int.toNat_of_nonneg (by omega)
        refine ⟨rfl, ?_, ?_⟩
        · show (stepLoop m true (m.steps_per_revolution - cur + target).toNat).steps_from_home
            = some target
          rw [stepLoop_steps true _ m cur hm hc0 hcN]
          simp only [if_true, hcast]
          rw [show cur + (m.steps_per_revolution - cur + target)
              = target + m.steps_per_revolution * 1 by ring,
            emod_reduce target m.steps_per_revolution 1 ht0 htN]
        · show (((m.steps_per_revolution - cur + target).toNat : ℤ)) = _
          rw [hcast, if_neg heq, if_neg hgt]
    | false =>
      simp only [Bool.false_eq_true, if_false]
      by_cases hgt : target > cur
      · rw [if_pos hgt,
          step_ok m (cur + (m.steps_per_revolution - target)) false rpm hspeed hrpm hN0]
        have hcast : (((cur + (m.steps_per_revolution - target)).toNat : ℤ))
            = cur + (m.steps_per_revolution - target) := Int.toNat_of_nonneg (by omega)
        refine ⟨rfl, ?_, ?_⟩
        · show (stepLoop m false
              (cur + (m.steps_per_revolution - target)).toNat).steps_from_home = some target
          rw [stepLoop_steps false _ m cur hm hc0 hcN]
          simp only [Bool.false_eq_true, if_false, hcast]
          rw [show cur - (cur + (m.steps_per_revolution - target))
              = target + m.steps_per_revolution * (-1) by ring,
            emod_reduce target m.steps_per_revolution (-1) ht0 htN]
        · show (((cur + (m.steps_per_revolution - target)).toNat : ℤ)) = _
          rw [hcast, if_neg heq, if_pos hgt]
      · rw [if_neg hgt, step_ok m (cur - target) false rpm hspeed hrpm hN0]
        have hcast : (((cur - target).toNat : ℤ)) = cur - target :=
          Int.toNat_of_nonneg (by omega)
        refine ⟨rfl, ?_, ?_⟩
        · show (stepLoop m false (cur - target).toNat).steps_from_home = some target
          rw [stepLoop_steps false _ m cur hm hc0 hcN]
          simp only [Bool.false_eq_true, if_false, hcast]
          rw [show cur - (cur - target) = target + m.steps_per_revolution * 0 by ring,
            emod_reduce target m.steps_per_revolution 0 ht0 htN]
        · show (((cur - target).toNat : ℤ)) = _
          rw [hcast, if_neg heq, if_neg hgt]


/-- `py_int` on an integer value is the identity. -/
lemma py_int_intCast (j : ℤ) : py_int (j : ℚ) = j := by
  unfold py_int
  split <;> simp

/-- Fields of `set_current_position_as_home`. -/
@[simp]
lemma set_home_spr (m : StepperMotor) :
    (set_current_position_as_home m).steps_per_revolution = m.steps_per_revolution := rfl

@[simp]
lemma set_home_max_rpm (m : StepperMotor) :
    (set_current_position_as_home m).max_rpm = m.max_rpm := rfl

@[simp]
lemma set_home_steps (m : StepperMotor) :
    (set_current_position_as_home m).steps_from_home = some 0 := rfl

/-- The `max_rpm` guard only looks at the `max_rpm` field. -/
lemma max_rpm_exceeded_congr (m m' : StepperMotor) (rpm : ℚ)
    (h : m.max_rpm = m'.max_rpm) :
    max_rpm_exceeded m rpm = max_rpm_exceeded m' rpm := by
  unfold max_rpm_exceeded
  rw [h]

/-- Closed form of the delay computation when neither division raises. -/
lemma calculate_delay_eq (m : StepperMotor) (rpm : ℚ)
    (hrpm : rpm ≠ 0) (hN : m.steps_per_revolution ≠ 0) :
    calculate_delay_from_rpm m rpm =
      Except.ok (30 / (rpm * (m.steps_per_revolution : ℚ))) := by
  have hNq : (m.steps_per_revolution : ℚ) ≠ 0 := by exact_mod_cast hN
  have h2 : (m.steps_per_revolution : ℚ) * 2 ≠ 0 := by simp [hNq]
  simp only [calculate_delay_from_rpm, if_neg hrpm, if_neg h2]
  congr 1
  field_simp
  ring

/-! ### Claim theorems -/

/-- C1: for a motor with home set at `cur ∈ [0, N)` and a step-index target
in `[0, N)`: if the target equals the current position, `go_to_position`
emits zero pulses and leaves `steps_from_home` unchanged; otherwise it
executes exactly the direction-respecting distance (clockwise
`target - cur` or `N - cur + target`; counterclockwise
`cur + (N - target)` or `cur - target`) and afterwards `steps_from_home`
equals the target. -/
theorem C1_go_to_position_distance (m : StepperMotor) (d : Bool) (rpm : ℚ)
    (cur target : ℤ)
    (hm : m.steps_from_home = some cur)
    (hc0 : 0 ≤ cur) (hcN : cur < m.steps_per_revolution)
    (ht0 : 0 ≤ target) (htN : target < m.steps_per_revolution)
    (hspeed : max_rpm_exceeded m rpm = false) (hrpm : 0 < rpm) :
    (go_to_position m d rpm (some target) none).error = none ∧
    (go_to_position m d rpm (some target) none).motor.steps_from_home = some target ∧
    ((go_to_position m d rpm (some target) none).pulses : ℤ) =
      (if target = cur then 0
       else if d then
        (if target > cur then target - cur
         else m.steps_per_revolution - cur + target)
       else
        (if target > cur then cur + (m.steps_per_revolution - target)
         else cur - target)) := by
  have hred : go_to_position m d rpm (some target) none = go_to_target m d rpm cur target := by
    unfold go_to_position
    rw [hm]
  rw [hred]
  exact go_to_target_spec m d rpm cur target hm hc0 hcN ht0 htN hspeed (ne_of_gt hrpm)

/-- C1 witness: the spec's wraparound example, `N = 200`, current position
10, counterclockwise to 150: 60 pulses, final position 150. -/
theorem C1_witness :
    (go_to_position demo200at10 false 60 (some 150) none).error = none ∧
    (go_to_position demo200at10 false 60 (some 150) none).motor.steps_from_home = some 150 ∧
    (go_to_position demo200at10 false 60 (some 150) none).pulses = 60 := by
  have h := C1_go_to_position_distance demo200at10 false 60 10 150 rfl
    (by norm_num) (by norm_num [demo200at10]) (by norm_num)
    (by norm_num [demo200at10]) rfl (by norm_num)
  refine ⟨h.1, h.2.1, ?_⟩
  have hp := h.2.2
  norm_num [demo200at10] at hp
  exact_mod_cast hp

/-- C8: for positive rpm and positive `steps_per_revolution`, the delay is
exactly `(60 / rpm) / (N * 2) = 30 / (rpm * N)`. -/
theorem C8_delay_formula (m : StepperMotor) (rpm : ℚ)
    (hrpm : 0 < rpm) (hN : 0 < m.steps_per_revolution) :
    calculate_delay_from_rpm m rpm =
      Except.ok (30 / (rpm * (m.steps_per_revolution : ℚ))) :=
  calculate_delay_eq m rpm (ne_of_gt hrpm) (by omega)

/-- C8 witness: `rpm = 60`, `N = 200` gives a delay of `1/400` seconds. -/
theorem C8_witness :
    calculate_delay_from_rpm demo200 60 = Except.ok (1 / 400) := by
  have h := C8_delay_formula demo200 60 (by norm_num) (by norm_num [demo200])
  rw [h]
  norm_num [demo200]

/-- C9: an absolute move whose resolved target differs from the current
position hands `step` a pulse count in `[1, N - 1]`: never zero, never a
full revolution. -/
theorem C9_pulse_bounds (m : StepperMotor) (d : Bool) (rpm : ℚ)
    (cur target : ℤ)
    (hm : m.steps_from_home = some cur)
    (hc0 : 0 ≤ cur) (hcN : cur < m.steps_per_revolution)
    (ht0 : 0 ≤ target) (htN : target < m.steps_per_revolution)
    (hne : target ≠ cur)
    (hspeed : max_rpm_exceeded m rpm = false) (hrpm : 0 < rpm) :
    1 ≤ (go_to_position m d rpm (some target) none).pulses ∧
    ((go_to_position m d rpm (some target) none).pulses : ℤ) ≤
      m.steps_per_revolution - 1 := by
  have hred : go_to_position m d rpm (some target) none = go_to_target m d rpm cur target := by
    unfold go_to_position
    rw [hm]
  obtain ⟨-, -, hp⟩ :=
    go_to_target_spec m d rpm cur target hm hc0 hcN ht0 htN hspeed (ne_of_gt hrpm)
  rw [hred]
  constructor
  · have h1 : (1 : ℤ) ≤ ((go_to_target m d rpm cur target).pulses : ℤ) := by
      rw [hp]
      split_ifs <;> omega
    exact_mod_cast h1
  · rw [hp]
    split_ifs <;> omega

/-- C9 witness: `N = 200`, current 10, counterclockwise to 150: the pulse
count 60 lies in `[1, 199]`. -/
theorem C9_witness :
    1 ≤ (go_to_position demo200at10 false 60 (some 150) none).pulses ∧
    ((go_to_position demo200at10 false 60 (some 150) none).pulses : ℤ) ≤ 200 - 1 :=
  C9_pulse_bounds demo200at10 false 60 10 150 rfl
    (by norm_num) (by norm_num [demo200at10]) (by norm_num)
    (by norm_num [demo200at10]) (by norm_num) rfl (by norm_num)

/-- C10: `step` with a non-positive step count performs `range(steps)` with
an empty range: provided the speed guard passes and the delay computation
does not divide by zero, it raises nothing, emits zero pulses, and leaves
the whole state (in particular `steps_from_home`) unchanged — the
`stepCount >= 0` precondition is not validated. -/
theorem C10_nonpositive_steps (m : StepperMotor) (steps : ℤ) (d : Bool) (rpm : ℚ)
    (hsteps : steps ≤ 0)
    (hspeed : max_rpm_exceeded m rpm = false) (hrpm : rpm ≠ 0)
    (hN : m.steps_per_revolution ≠ 0) :
    step m steps d rpm = ⟨m, 0, none⟩ := by
  rw [step_ok m steps d rpm hspeed hrpm hN, Int.toNat_of_nonpos hsteps]
  rfl

/-- C10 witness: `step(-3, clockwise, 60)` on the 200-step motor succeeds
as a no-op. -/
theorem C10_witness :
    step demo200at10 (-3) true 60 = ⟨demo200at10, 0, none⟩ :=
  C10_nonpositive_steps demo200at10 (-3) true 60 (by norm_num) rfl (by norm_num)
    (by norm_num [demo200at10])

/-- C2: on the 200-step motor (step angle 1.8 degrees) with home set at 0,
`go_to_position` with angle 90 succeeds resolving to step index 50, and
with angle 91 fails with the not-a-step-multiple `ValueError`. -/
theorem C2_angle_resolution :
    (go_to_position demo200 true 60 none (some 90)).error = none ∧
    (go_to_position demo200 true 60 none (some 90)).motor.steps_from_home = some 50 ∧
    (go_to_position demo200 true 60 none (some 91)).error =
      some (PyError.valueError
        "Value given for degree is not a multiple of the motors step angle.") := by
  have hred90 : go_to_position demo200 true 60 none (some 90) =
      go_to_target demo200 true 60 0 50 := by
    norm_num [go_to_position, demo200, py_int]
  have h := go_to_target_spec demo200 true 60 0 50 rfl (by norm_num)
    (by norm_num [demo200]) (by norm_num) (by norm_num [demo200]) rfl (by norm_num)
  refine ⟨?_, ?_, ?_⟩
  · rw [hred90]
    exact h.1
  · rw [hred90]
    exact h.2.1
  · norm_num [go_to_position, demo200, py_int]

/-- C3 counterexample: angle 360 is in `[0, 360]` and an exact multiple of
the step angle, yet `go_to_position` fails: the resolved step index 200
flunks the `[0, N)` range check and raises the out-of-range `IndexError`. -/
theorem C3_counterexample :
    (go_to_position demo200 true 60 none (some 360)).error =
      some (PyError.indexError
        "Value given for steps_relative_to_home exceeds self.steps_per_revolution.") := by
  norm_num [go_to_position, demo200, go_to_target, py_int]

/-- C3 (amended): for every angle in the half-open interval `[0, 360)` that
is an exact multiple of the step angle `360 / N`, `go_to_position` does not
fail: it resolves the angle to step index `angle / (360 / N)` and proceeds.
Angle 360 instead resolves to step index `N`, which fails the step-index
range check (see the counterexample). -/
theorem C3_amended_angle (m : StepperMotor) (d : Bool) (rpm angle : ℚ) (j cur : ℤ)
    (hm : m.steps_from_home = some cur)
    (hc0 : 0 ≤ cur) (hcN : cur < m.steps_per_revolution)
    (hangle : angle = (j : ℚ) * (360 / (m.steps_per_revolution : ℚ)))
    (h0 : 0 ≤ angle) (h360 : angle < 360)
    (hspeed : max_rpm_exceeded m rpm = false) (hrpm : 0 < rpm) :
    (go_to_position m d rpm none (some angle)).error = none ∧
    (go_to_position m d rpm none (some angle)).motor.steps_from_home = some j := by
  have hNpos : 0 < m.steps_per_revolution := lt_of_le_of_lt hc0 hcN
  have hNq : (0 : ℚ) < (m.steps_per_revolution : ℚ) := by exact_mod_cast hNpos
  have hsa : (0 : ℚ) < 360 / (m.steps_per_revolution : ℚ) := by positivity
  have hjq : (j : ℚ) = angle / (360 / (m.steps_per_revolution : ℚ)) := by
    rw [hangle]
    field_simp
  have hj0 : 0 ≤ j := by
    have hq : (0 : ℚ) ≤ (j : ℚ) := by
      rw [hjq]
      exact div_nonneg h0 (le_of_lt hsa)
    exact_mod_cast hq
  have hjN : j < m.steps_per_revolution := by
    have h1 : (j : ℚ) * (360 / (m.steps_per_revolution : ℚ)) <
        (m.steps_per_revolution : ℚ) * (360 / (m.steps_per_revolution : ℚ)) := by
      rw [← hangle]
      have h2 : (m.steps_per_revolution : ℚ) * (360 / (m.steps_per_revolution : ℚ))
          = 360 := by
        field_simp
      rw [h2]
      exact h360
    have h3 : (j : ℚ) < (m.steps_per_revolution : ℚ) :=
      lt_of_mul_lt_mul_right h1 (le_of_lt hsa)
    exact_mod_cast h3
  have hdiv : angle / (360 / (m.steps_per_revolution : ℚ)) = (j : ℚ) := hjq.symm
  have hred : go_to_position m d rpm none (some angle) = go_to_target m d rpm cur j := by
    simp only [go_to_position, hm]
    rw [if_neg (show ¬(angle < 0 ∨ angle > 360) by push_neg; exact ⟨h0, by linarith⟩),
      if_neg (ne_of_gt hNq), hdiv, py_int_intCast,
      if_neg (show ¬((j : ℚ) ≠ (j : ℚ)) from fun h => h rfl)]
  rw [hred]
  obtain ⟨h1, h2, -⟩ :=
    go_to_target_spec m d rpm cur j hm hc0 hcN hj0 hjN hspeed (ne_of_gt hrpm)
  exact ⟨h1, h2⟩

/-- C3 witness: angle 90 on the 200-step motor at position 10 resolves to
step index 50 and succeeds. -/
theorem C3_witness :
    (go_to_position demo200at10 true 60 none (some 90)).error = none ∧
    (go_to_position demo200at10 true 60 none (some 90)).motor.steps_from_home = some 50 :=
  C3_amended_angle demo200at10 true 60 90 50 10 rfl (by norm_num)
    (by norm_num [demo200at10]) (by norm_num [demo200at10]) (by norm_num)
    (by norm_num) rfl (by norm_num)

/-- C4 counterexample: a negative rpm is not rejected: the timing
computation returns the (negative) duration `-1/400` instead of failing. -/
theorem C4_counterexample :
    calculate_delay_from_rpm demo200 (-60) = Except.ok (-(1 / 400)) := by
  norm_num [calculate_delay_from_rpm, demo200]

/-- C4 (amended): for `rpm = 0` the timing computation fails — with a
division-by-zero error, not a typed invalid-speed error; for `rpm < 0` it
does not fail at all: it returns the negative duration `30 / (rpm * N)`. -/
theorem C4_amended_delay (m : StepperMotor) (rpm : ℚ)
    (hN : 0 < m.steps_per_revolution) :
    (rpm = 0 → calculate_delay_from_rpm m rpm = Except.error PyError.zeroDivisionError) ∧
    (rpm < 0 →
      calculate_delay_from_rpm m rpm =
        Except.ok (30 / (rpm * (m.steps_per_revolution : ℚ))) ∧
      30 / (rpm * (m.steps_per_revolution : ℚ)) < 0) := by
  refine ⟨fun h => ?_, fun h => ⟨?_, ?_⟩⟩
  · unfold calculate_delay_from_rpm
    rw [if_pos h]
  · exact calculate_delay_eq m rpm (ne_of_lt h) (by omega)
  · have hNq : (0 : ℚ) < (m.steps_per_revolution : ℚ) := by exact_mod_cast hN
    exact div_neg_of_pos_of_neg (by norm_num) (mul_neg_of_neg_of_pos h hNq)

/-- C4 witness: on the 200-step motor, rpm 0 raises `ZeroDivisionError`
while rpm -60 returns the negative duration `30 / (-60 * 200)`. -/
theorem C4_witness :
    calculate_delay_from_rpm demo200 0 = Except.error PyError.zeroDivisionError ∧
    (calculate_delay_from_rpm demo200 (-60) =
        Except.ok (30 / ((-60) * (200 : ℚ))) ∧
      (30 : ℚ) / ((-60) * (200 : ℚ)) < 0) := by
  constructor
  · exact (C4_amended_delay demo200 0 (by norm_num [demo200])).1 rfl
  · exact (C4_amended_delay demo200 (-60) (by norm_num [demo200])).2 (by norm_num)

/-- C5: when `max_rpm` is set and the requested rpm exceeds it, `step`
raises the speed-exceeded `ValueError` with zero pulses and the state
unchanged; when `max_rpm` is unset or the rpm is within bound, `step`
never raises that error. -/
theorem C5_speed_check (m : StepperMotor) (steps : ℤ) (d : Bool) (rpm : ℚ) :
    (∀ mx, m.max_rpm = some mx → mx < rpm →
      step m steps d rpm = ⟨m, 0, some speedExceededError⟩) ∧
    ((∀ mx, m.max_rpm = some mx → rpm ≤ mx) →
      (step m steps d rpm).error ≠ some speedExceededError) := by
  constructor
  · intro mx hmx hlt
    have htrue : max_rpm_exceeded m rpm = true := by
      unfold max_rpm_exceeded
      rw [hmx]
      simpa using hlt
    unfold step
    rw [htrue, if_pos rfl]
  · intro hle
    have hfalse : max_rpm_exceeded m rpm = false := by
      unfold max_rpm_exceeded
      cases hmx : m.max_rpm with
      | none => rfl
      | some mx => simpa using hle mx hmx
    unfold step
    rw [hfalse]
    simp only [Bool.false_eq_true, if_false]
    cases hc : calculate_delay_from_rpm m rpm with
    | error e =>
      have he : e = PyError.zeroDivisionError := by
        simp only [calculate_delay_from_rpm] at hc
        split_ifs at hc <;> (injection hc with h; exact h.symm)
      simp [he, speedExceededError]
    | ok v => simp

/-- C5 witness: with `max_rpm = 100`, requesting rpm 150 raises the
speed-exceeded error with zero pulses and unchanged state, while rpm 50
does not raise it. -/
theorem C5_witness :
    step demo200max 5 true 150 = ⟨demo200max, 0, some speedExceededError⟩ ∧
    (step demo200max 5 true 50).error ≠ some speedExceededError := by
  constructor
  · exact (C5_speed_check demo200max 5 true 150).1 100 rfl (by norm_num)
  · refine (C5_speed_check demo200max 5 true 50).2 ?_
    intro mx hmx
    simp only [demo200max, Option.some.injEq] at hmx
    rw [← hmx]
    norm_num

/-- C6: starting from any in-range position with home set, every sequence
of `update_position` calls, in any mix of directions, keeps
`steps_from_home` inside `[0, steps_per_revolution)`. -/
theorem C6_position_invariant (m : StepperMotor) (s : ℤ) (ds : List Bool)
    (hm : m.steps_from_home = some s)
    (h0 : 0 ≤ s) (hN : s < m.steps_per_revolution) :
    ∃ s', (advanceSeq m ds).steps_from_home = some s' ∧
      0 ≤ s' ∧ s' < m.steps_per_revolution := by
  induction ds generalizing m s with
  | nil => exact ⟨s, hm, h0, hN⟩
  | cons d ds ih =>
    obtain ⟨s1, hm1, h01, hN1⟩ := update_position_mem m s d hm h0 hN
    obtain ⟨s2, hm2, h02, hN2⟩ := ih (update_position m d) s1 hm1 h01
      (by rw [update_position_spr]; exact hN1)
    refine ⟨s2, hm2, h02, ?_⟩
    rwa [update_position_spr] at hN2

/-- C6 witness: a mixed four-direction sequence on a 3-step motor stays in
`[0, 3)`. -/
theorem C6_witness :
    ∃ s', (advanceSeq ⟨3, none, true, some 2⟩ [true, true, false, true]).steps_from_home
        = some s' ∧
      0 ≤ s' ∧ s' < (⟨3, none, true, some 2⟩ : StepperMotor).steps_per_revolution :=
  C6_position_invariant ⟨3, none, true, some 2⟩ 2 [true, true, false, true] rfl
    (by norm_num) (by norm_num)

/-- C7: after marking home, `step(k, clockwise, rpm)` followed by
`step(k, counterclockwise, rpm)` succeeds and returns `steps_from_home` to
its pre-sequence value, for any `0 < k < N` and any valid rpm. -/
theorem C7_round_trip (m : StepperMotor) (k : ℤ) (rpm : ℚ)
    (hk0 : 0 < k) (hkN : k < m.steps_per_revolution)
    (hspeed : max_rpm_exceeded m rpm = false) (hrpm : 0 < rpm) :
    (step (set_current_position_as_home m) k true rpm).error = none ∧
    (step (step (set_current_position_as_home m) k true rpm).motor k false rpm).error
      = none ∧
    (step (step (set_current_position_as_home m) k true rpm).motor
        k false rpm).motor.steps_from_home
      = (set_current_position_as_home m).steps_from_home := by
  have hNpos : 0 < m.steps_per_revolution := lt_trans hk0 hkN
  have hN0 : m.steps_per_revolution ≠ 0 := by omega
  have hrpm0 : rpm ≠ 0 := ne_of_gt hrpm
  set m0 := set_current_position_as_home m with hm0
  have hsprm0 : m0.steps_per_revolution = m.steps_per_revolution := by
    rw [hm0, set_home_spr]
  have hpos0 : m0.steps_from_home = some 0 := by
    rw [hm0, set_home_steps]
  have hspeed0 : max_rpm_exceeded m0 rpm = false := by
    rw [max_rpm_exceeded_congr m0 m rpm (by rw [hm0, set_home_max_rpm])]
    exact hspeed
  have hstep1 : step m0 k true rpm = ⟨stepLoop m0 true k.toNat, k.toNat, none⟩ :=
    step_ok m0 k true rpm hspeed0 hrpm0 (by rw [hsprm0]; exact hN0)
  have hkcast : ((k.toNat : ℤ)) = k := Int.toNat_of_nonneg (le_of_lt hk0)
  have hpos1 : (stepLoop m0 true k.toNat).steps_from_home = some k := by
    rw [stepLoop_steps true k.toNat m0 0 hpos0 le_rfl (by rw [hsprm0]; exact hNpos),
      hsprm0]
    simp only [if_true, zero_add, hkcast]
    rw [Int.emod_eq_of_lt (le_of_lt hk0) hkN]
  set m1 := stepLoop m0 true k.toNat with hm1
  have hspr1 : m1.steps_per_revolution = m.steps_per_revolution := by
    rw [hm1, stepLoop_spr, hsprm0]
  have hspeed1 : max_rpm_exceeded m1 rpm = false := by
    rw [max_rpm_exceeded_congr m1 m rpm (by rw [hm1, stepLoop_max_rpm, hm0, set_home_max_rpm])]
    exact hspeed
  have hstep2 : step m1 k false rpm = ⟨stepLoop m1 false k.toNat, k.toNat, none⟩ :=
    step_ok m1 k false rpm hspeed1 hrpm0 (by rw [hspr1]; exact hN0)
  have hpos2 : (stepLoop m1 false k.toNat).steps_from_home = some 0 := by
    rw [stepLoop_steps false k.toNat m1 k hpos1 (le_of_lt hk0) (by rw [hspr1]; exact hkN),
      hspr1]
    simp only [Bool.false_eq_true, if_false, hkcast]
    rw [sub_self, Int.zero_emod]
  have hmotor : (step m0 k true rpm).motor = m1 := by
    rw [hstep1]
  refine ⟨by rw [hstep1], ?_, ?_⟩
  · rw [hmotor, hstep2]
  · rw [hmotor, hstep2]
    show (stepLoop m1 false k.toNat).steps_from_home = m0.steps_from_home
    rw [hpos2, hpos0]

/-- C7 witness: on the 200-step motor with `max_rpm = 100`, marking home
then stepping 5 clockwise and 5 counterclockwise at rpm 60 returns the
position to its pre-sequence value. -/
theorem C7_witness :
    (step (set_current_position_as_home demo200max) 5 true 60).error = none ∧
    (step (step (set_current_position_as_home demo200max) 5 true 60).motor
        5 false 60).error = none ∧
    (step (step (set_current_position_as_home demo200max) 5 true 60).motor
        5 false 60).motor.steps_from_home
      = (set_current_position_as_home demo200max).steps_from_home :=
  C7_round_trip demo200max 5 60 (by norm_num) (by norm_num [demo200max])
    (by norm_num [max_rpm_exceeded, demo200max]) (by norm_num)
